import Mathlib

/-
  Verification of the AB-EAM backend core: the schema-versioned migration
  subsystem (MigrationManager over the SQLite storage handle) and the base
  repository / self-validating model abstraction.

  The embedding is shallow: the TypeScript classes become Lean structures,
  async methods become pure functions threading explicit database state,
  thrown exceptions become Except / Option error values, and SQLite
  transactions are modelled by snapshot-and-restore (BEGIN saves the state,
  ROLLBACK restores it, COMMIT keeps the new state).  SQL scripts carried by
  migrations are opaque strings whose effect on the schema is given by an
  environment parameter (Engine); an engine may report an error together
  with a partially executed schema, which is exactly what a transaction
  must roll back.
-/

namespace ABEAM

/-- A schema migration as registered with the migration manager: version,
name, forward SQL script and optional reverse SQL script
(interface Migration in src/config/migration). -/
structure Migration where
  version : Nat
  name : String
  up : String
  down : Option String
  deriving DecidableEq, Repr

/-- One row of the migrations bookkeeping table: the recorded version and
name (the id / applied_at columns are never consulted by the manager). -/
structure MigrationRow where
  version : Nat
  name : String
  deriving DecidableEq, Repr

/-- State of the SQLite database as seen by the migration subsystem: whether
the migrations bookkeeping table exists, its rows in insertion order, and an
abstract schema holding the artifacts created by migration scripts. -/
structure DBState where
  migTable : Bool
  records : List MigrationRow
  schema : List String
  deriving DecidableEq, Repr

/-- Environment semantics of running an opaque SQL script through
database.run: an optional error message together with the schema after
execution.  On an error the returned schema may reflect partial execution
(statements before the failing one); the enclosing transaction is what
discards such partial effects. -/
structure Engine where
  runScript : String → List String → Option String × List String

/-- Result of SELECT MAX(version) over the bookkeeping rows, with the
null-coalescing to 0 performed by getCurrentVersion. -/
def maxVersion (rs : List MigrationRow) : Nat :=
  rs.foldl (fun acc r => max acc r.version) 0

/-- MigrationManager.getCurrentVersion: queries MAX(version) from the
migrations table; the query itself fails when the table does not exist. -/
def getCurrentVersion (db : DBState) : Except String Nat :=
  if db.migTable then Except.ok (maxVersion db.records)
  else Except.error "no such table: migrations"

/-- MigrationManager.getPendingMigrations: registered migrations whose
version exceeds the current version. -/
def getPendingMigrations (migs : List Migration) (db : DBState) :
    Except String (List Migration) :=
  (getCurrentVersion db).map fun cv => migs.filter fun m => cv < m.version

/-- MigrationManager.applyMigration: one transaction that executes the
forward script and then inserts the bookkeeping row; any failure rolls the
transaction back (the pre-transaction state is restored) and the error is
rethrown, carried here next to the restored state. -/
def applyMigration (eng : Engine) (m : Migration) (db : DBState) :
    Except (String × DBState) DBState :=
  match eng.runScript m.up db.schema with
  | (some e, _) => Except.error (e, db)
  | (none, sch) =>
    if db.migTable then
      Except.ok { db with
                    schema := sch,
                    records := db.records ++ [⟨m.version, m.name⟩] }
    else
      Except.error ("no such table: migrations", db)

/-- The loop body of MigrationManager.migrate: apply the pending migrations
in list order, stopping at the first failure. -/
def applyAll (eng : Engine) (pending : List Migration) (db : DBState) :
    Except (String × DBState) DBState :=
  match pending with
  | [] => Except.ok db
  | m :: rest =>
    match applyMigration eng m db with
    | Except.error e => Except.error e
    | Except.ok db2 => applyAll eng rest db2

/-- MigrationManager.migrate: computes the pending list once, returns
immediately when it is empty, otherwise applies each pending migration in
order and propagates the first failure. -/
def migrate (eng : Engine) (migs : List Migration) (db : DBState) :
    Except (String × DBState) DBState :=
  match getPendingMigrations migs db with
  | Except.error e => Except.error (e, db)
  | Except.ok pending =>
    if pending.isEmpty then Except.ok db
    else applyAll eng pending db

/-- MigrationManager.rollback: takes the last registered migration whose
version is at most the current version; when there is none, or it has no
down script, this is a no-op.  Otherwise one transaction runs the down
script and deletes the bookkeeping rows of that version; failure rolls back
and propagates. -/
def rollback (eng : Engine) (migs : List Migration) (db : DBState) :
    Except (String × DBState) DBState :=
  match getCurrentVersion db with
  | Except.error e => Except.error (e, db)
  | Except.ok cv =>
    match (migs.filter fun m => m.version ≤ cv).getLast? with
    | none => Except.ok db
    | some lastMig =>
      match lastMig.down with
      | none => Except.ok db
      | some ds =>
        match eng.runScript ds db.schema with
        | (some e, _) => Except.error (e, db)
        | (none, sch) =>
          if db.migTable then
            Except.ok { db with
                          schema := sch,
                          records := db.records.filter
                            (fun r => r.version ≠ lastMig.version) }
          else
            Except.error ("no such table: migrations", db)

/-- Return type of MigrationManager.getStatus. -/
structure MigStatus where
  currentVersion : Nat
  pendingCount : Nat
  totalMigrations : Nat
  deriving DecidableEq, Repr

/-- MigrationManager.getStatus: a snapshot of current version, pending
count and registered count. -/
def getStatus (migs : List Migration) (db : DBState) : Except String MigStatus :=
  match getCurrentVersion db with
  | Except.error e => Except.error e
  | Except.ok cv =>
    match getPendingMigrations migs db with
    | Except.error e => Except.error e
    | Except.ok pending => Except.ok ⟨cv, pending.length, migs.length⟩

/-- MigrationManager.addMigration: push the migration and re-sort the
registry by ascending version.  JavaScript Array.prototype.sort is stable,
so the stable insertion sort with the non-strict comparison reproduces its
result exactly. -/
def addMigration (migs : List Migration) (m : Migration) : List Migration :=
  List.insertionSort (fun a b => a.version ≤ b.version) (migs ++ [m])

/-- The initialized flag of the MigrationManager. -/
structure ManagerInit where
  initialized : Bool
  deriving DecidableEq, Repr

/-- MigrationManager.initializeMigrationsTable: CREATE TABLE IF NOT EXISTS
for the bookkeeping table, guarded by the initialized flag.  No other
manager operation invokes it. -/
def initializeMigrationsTable (st : ManagerInit) (db : DBState) :
    ManagerInit × DBState :=
  if st.initialized then (st, db)
  else (⟨true⟩, { db with migTable := true })

/-- The database state an operation leaves behind, whether it succeeded or
failed (after a failure the transaction rollback has restored a state). -/
def resultState (r : Except (String × DBState) DBState) : DBState :=
  match r with
  | Except.ok db => db
  | Except.error (_, db) => db

theorem foldl_max_le_init (rs : List MigrationRow) :
    ∀ a : Nat, a ≤ rs.foldl (fun acc r => max acc r.version) a := by
  induction rs with
  | nil => intro a; simp
  | cons r rest ih =>
    intro a
    calc a ≤ max a r.version := Nat.le_max_left _ _
    _ ≤ rest.foldl (fun acc r => max acc r.version) (max a r.version) := ih _

theorem maxVersion_ge (rs : List MigrationRow) :
    ∀ a : Nat, ∀ r ∈ rs, r.version ≤ rs.foldl (fun acc r => max acc r.version) a := by
  induction rs with
  | nil => intro a r hr; cases hr
  | cons x rest ih =>
    intro a r hr
    rcases List.mem_cons.mp hr with h | h
    · subst h
      calc r.version ≤ max a r.version := Nat.le_max_right _ _
      _ ≤ rest.foldl (fun acc r => max acc r.version) (max a r.version) :=
          foldl_max_le_init rest _
    · exact ih _ r h

theorem mem_records_le_maxVersion {rs : List MigrationRow} {r : MigrationRow}
    (h : r ∈ rs) : r.version ≤ maxVersion rs :=
  maxVersion_ge rs 0 r h

theorem maxVersion_append_single (rs : List MigrationRow) (r : MigrationRow) :
    maxVersion (rs ++ [r]) = max (maxVersion rs) r.version := by
  simp [maxVersion, List.foldl_append]

theorem applyMigration_error_eq {eng : Engine} {m : Migration} {db : DBState}
    {e : String} {db2 : DBState}
    (h : applyMigration eng m db = Except.error (e, db2)) : db2 = db := by
  unfold applyMigration at h
  rcases hrun : eng.runScript m.up db.schema with ⟨err, sch⟩
  rw [hrun] at h
  cases err with
  | some s => simp at h; exact h.2.symm
  | none =>
    simp at h
    by_cases ht : db.migTable <;> simp [ht] at h
    exact h.2.symm

theorem applyMigration_ok_spec {eng : Engine} {m : Migration} {db db2 : DBState}
    (h : applyMigration eng m db = Except.ok db2) :
    eng.runScript m.up db.schema = (none, db2.schema)
    ∧ db.migTable = true
    ∧ db2.migTable = true
    ∧ db2.records = db.records ++ [⟨m.version, m.name⟩] := by
  unfold applyMigration at h
  rcases hrun : eng.runScript m.up db.schema with ⟨err, sch⟩
  rw [hrun] at h
  cases err with
  | some s => simp at h
  | none =>
    by_cases ht : db.migTable <;> simp [ht] at h
    subst h
    exact ⟨rfl, ht, rfl, rfl⟩

theorem applyAll_error_split (eng : Engine) :
    ∀ (pending : List Migration) (db : DBState) (e : String) (db2 : DBState),
      applyAll eng pending db = Except.error (e, db2) →
      ∃ done m rest, pending = done ++ m :: rest
        ∧ applyAll eng done db = Except.ok db2
        ∧ applyMigration eng m db2 = Except.error (e, db2) := by
  intro pending
  induction pending with
  | nil => intro db e db2 h; simp [applyAll] at h
  | cons m rest ih =>
    intro db e db2 h
    unfold applyAll at h
    cases hm : applyMigration eng m db with
    | error p =>
      rw [hm] at h
      simp at h
      subst h
      have hdb : db2 = db := applyMigration_error_eq hm
      subst hdb
      exact ⟨[], m, rest, by simp, by simp [applyAll], hm⟩
    | ok dbn =>
      rw [hm] at h
      rcases ih dbn e db2 h with ⟨done, m2, rest2, hsplit, hok, hfail⟩
      refine ⟨m :: done, m2, rest2, by simp [hsplit], ?_, hfail⟩
      simp [applyAll, hm, hok]

theorem applyAll_ok_records (eng : Engine) :
    ∀ (pending : List Migration) (db db2 : DBState),
      applyAll eng pending db = Except.ok db2 →
      db2.records = db.records
        ++ pending.map (fun m => MigrationRow.mk m.version m.name) := by
  intro pending
  induction pending with
  | nil => intro db db2 h; simp [applyAll] at h; simp [h]
  | cons m rest ih =>
    intro db db2 h
    unfold applyAll at h
    cases hm : applyMigration eng m db with
    | error p => rw [hm] at h; simp at h
    | ok dbn =>
      rw [hm] at h
      have hrec := (applyMigration_ok_spec hm).2.2.2
      have := ih dbn db2 h
      rw [this, hrec]
      simp

theorem getPending_ok_of_table {migs : List Migration} {db : DBState}
    (htab : db.migTable = true) :
    getPendingMigrations migs db
      = Except.ok (migs.filter fun m => maxVersion db.records < m.version) := by
  simp [getPendingMigrations, getCurrentVersion, htab, Except.map]

/-- C1: migrate applies each pending migration (version greater than the
current version, ascending order when the registry is sorted) inside one
all-or-nothing transaction that runs the forward script then inserts the
bookkeeping row; on a failure the transaction is rolled back leaving the
pre-transaction state intact, the remaining pending migrations are not
attempted and the error propagates; with nothing pending migrate is a
successful no-op. -/
theorem migrate_transactional (eng : Engine) (migs : List Migration) (db : DBState)
    (htab : db.migTable = true)
    (hsort : migs.Pairwise fun a b => a.version ≤ b.version) :
    (getPendingMigrations migs db = Except.ok [] → migrate eng migs db = Except.ok db)
    ∧ (∀ pending, getPendingMigrations migs db = Except.ok pending →
        (∀ m ∈ pending, maxVersion db.records < m.version)
        ∧ pending.Pairwise (fun a b => a.version ≤ b.version))
    ∧ (∀ m d d2, applyMigration eng m d = Except.ok d2 →
        eng.runScript m.up d.schema = (none, d2.schema)
        ∧ d2.records = d.records ++ [MigrationRow.mk m.version m.name])
    ∧ (∀ m d e d2, applyMigration eng m d = Except.error (e, d2) → d2 = d)
    ∧ (∀ e d2, migrate eng migs db = Except.error (e, d2) →
        ∃ pending done m rest, getPendingMigrations migs db = Except.ok pending
          ∧ pending = done ++ m :: rest
          ∧ applyAll eng done db = Except.ok d2
          ∧ applyMigration eng m d2 = Except.error (e, d2))
    ∧ (∀ d2 pending, migrate eng migs db = Except.ok d2 →
        getPendingMigrations migs db = Except.ok pending →
        d2.records = db.records
          ++ pending.map (fun m => MigrationRow.mk m.version m.name)) := by
  have hpend : getPendingMigrations migs db
      = Except.ok (migs.filter fun m => maxVersion db.records < m.version) :=
    getPending_ok_of_table htab
  refine ⟨?_, ?_, ?_, ?_, ?_, ?_⟩
  · intro h
    simp [migrate, h]
  · intro pending h
    rw [hpend] at h
    injection h with h
    subst h
    constructor
    · intro m hm
      exact of_decide_eq_true (List.mem_filter.mp hm).2
    · exact hsort.sublist (List.filter_sublist _)
  · intro m d d2 h
    have := applyMigration_ok_spec h
    exact ⟨this.1, this.2.2.2⟩
  · intro m d e d2 h
    exact applyMigration_error_eq h
  · intro e d2 h
    unfold migrate at h
    rw [hpend] at h
    by_cases hemp : (migs.filter fun m => maxVersion db.records < m.version).isEmpty
    · simp [hemp] at h
    · simp [hemp] at h
      rcases applyAll_error_split eng _ db e d2 h with ⟨done, m, rest, hsplit, hok, hfail⟩
      exact ⟨_, done, m, rest, hpend, hsplit, hok, hfail⟩
  · intro d2 pending h hp
    rw [hpend] at hp
    injection hp with hp
    subst hp
    unfold migrate at h
    rw [hpend] at h
    by_cases hemp : (migs.filter fun m => maxVersion db.records < m.version).isEmpty
    · simp [hemp] at h
      rw [List.isEmpty_iff] at hemp
      rw [hemp]
      simp [← h]
    · simp [hemp] at h
      exact applyAll_ok_records eng _ db d2 h

/-- A sample engine: every script succeeds and prepends a marker artifact. -/
def engOk : Engine := ⟨fun _ sch => (none, "users" :: sch)⟩

/-- A sample registry with the single initial-schema migration. -/
def migsInit : List Migration :=
  [⟨1, "initial_schema", "CREATE-TABLES", some "DROP-TABLES"⟩]

/-- An initialized database with no applied migration. -/
def dbInit : DBState := ⟨true, [], []⟩

/-- Witness for C1: instantiating migrate_transactional on a concrete
engine, registry and database discharges both hypotheses and yields the
bookkeeping rows appended for the one pending migration. -/
theorem migrate_transactional_witness :
    (DBState.mk true [MigrationRow.mk 1 "initial_schema"] ["users"]).records
      = dbInit.records
        ++ migsInit.map (fun m => MigrationRow.mk m.version m.name) :=
  (migrate_transactional engOk migsInit dbInit rfl (by decide)).2.2.2.2.2
    (DBState.mk true [MigrationRow.mk 1 "initial_schema"] ["users"]) migsInit
    rfl rfl

/-- An engine whose scripts always succeed, prepending the script text to
the schema as a marker artifact. -/
def engRoll : Engine := ⟨fun s sch => (none, s :: sch)⟩

/-- A registry holding one reversible migration of version 1. -/
def migsMismatch : List Migration := [⟨1, "m1", "u1", some "d1"⟩]

/-- A database whose bookkeeping table records version 2, which no
registered migration carries. -/
def dbMismatch : DBState := ⟨true, [⟨2, "m2"⟩], []⟩

/-- C2 counterexample: no registered migration matches the current maximum
applied version (2), so the claim predicts a no-op; the code instead picks
the last registered migration with version at most 2 (version 1), runs its
down script and issues the delete, so the database visibly changes. -/
theorem rollback_version_mismatch_not_noop :
    (∀ m ∈ migsMismatch, m.version ≠ maxVersion dbMismatch.records)
    ∧ rollback engRoll migsMismatch dbMismatch
        = Except.ok (DBState.mk true [MigrationRow.mk 2 "m2"] ["d1"])
    ∧ rollback engRoll migsMismatch dbMismatch ≠ Except.ok dbMismatch := by
  refine ⟨by decide, rfl, ?_⟩
  intro h
  rw [show rollback engRoll migsMismatch dbMismatch
        = Except.ok (DBState.mk true [MigrationRow.mk 2 "m2"] ["d1"]) from rfl] at h
  exact absurd (Except.ok.inj h) (by decide)

/-- C2 amended: rollback selects the last registered migration whose
version is at most the current version (the greatest such version, not
necessarily equal to the current one); if there is none, or it has no down
script, rollback is a successful no-op; otherwise one transaction runs the
down script and deletes that version's bookkeeping rows, and a script
failure rolls back to the unchanged state and propagates the error. -/
theorem rollback_selects_last_le_current (eng : Engine) (migs : List Migration)
    (db : DBState) (htab : db.migTable = true) :
    ((migs.filter fun m => m.version ≤ maxVersion db.records).getLast? = none →
      rollback eng migs db = Except.ok db)
    ∧ (∀ lastMig,
        (migs.filter fun m => m.version ≤ maxVersion db.records).getLast? = some lastMig →
        lastMig.down = none →
        rollback eng migs db = Except.ok db)
    ∧ (∀ lastMig ds e sch,
        (migs.filter fun m => m.version ≤ maxVersion db.records).getLast? = some lastMig →
        lastMig.down = some ds →
        eng.runScript ds db.schema = (some e, sch) →
        rollback eng migs db = Except.error (e, db))
    ∧ (∀ lastMig ds sch,
        (migs.filter fun m => m.version ≤ maxVersion db.records).getLast? = some lastMig →
        lastMig.down = some ds →
        eng.runScript ds db.schema = (none, sch) →
        rollback eng migs db = Except.ok
          { db with
              schema := sch,
              records := db.records.filter (fun r => r.version ≠ lastMig.version) }) := by
  refine ⟨?_, ?_, ?_, ?_⟩
  · intro h
    simp [rollback, getCurrentVersion, htab, h]
  · intro lastMig h hdown
    simp [rollback, getCurrentVersion, htab, h, hdown]
  · intro lastMig ds e sch h hdown hrun
    simp [rollback, getCurrentVersion, htab, h, hdown, hrun]
  · intro lastMig ds sch h hdown hrun
    simp [rollback, getCurrentVersion, htab, h, hdown, hrun]

/-- A database where the single registered migration is exactly the applied
one. -/
def dbApplied : DBState := ⟨true, [⟨1, "m1"⟩], []⟩

/-- Witness for C2 amended: on a concrete state the selected migration is
the applied version 1; its down script runs and its bookkeeping row is
deleted. -/
theorem rollback_selects_last_le_current_witness :
    rollback engRoll migsMismatch dbApplied = Except.ok (DBState.mk true [] ["d1"]) :=
  (rollback_selects_last_le_current engRoll migsMismatch dbApplied rfl).2.2.2
    ⟨1, "m1", "u1", some "d1"⟩ "d1" ["d1"] rfl rfl rfl

/-- An engine whose scripts always succeed and leave the schema unchanged. -/
def engNoop : Engine := ⟨fun _ sch => (none, sch)⟩

/-- Two registered migrations sharing version 1, in registration order
(the stable sort keeps them in that order). -/
def dupRegistry : List Migration :=
  addMigration (addMigration [] ⟨1, "a", "u-a", none⟩) ⟨1, "b", "u-b", none⟩

/-- C3 counterexample: with two registered migrations sharing version 1,
one migrate() call computes the pending list once and applies both, so the
bookkeeping table ends with two rows of version 1 — versions recorded in it
are not unique. -/
theorem duplicate_version_rows :
    dupRegistry = [⟨1, "a", "u-a", none⟩, ⟨1, "b", "u-b", none⟩]
    ∧ migrate engNoop dupRegistry (DBState.mk true [] [])
        = Except.ok (DBState.mk true [MigrationRow.mk 1 "a", MigrationRow.mk 1 "b"] [])
    ∧ ¬ (([MigrationRow.mk 1 "a", MigrationRow.mk 1 "b"].map MigrationRow.version).Nodup) :=
  ⟨rfl, rfl, by decide⟩

/-- The calls a client can make on the migration manager that affect the
registry or the database. -/
inductive MigOp where
  | add (m : Migration)
  | migrate
  | rollback

/-- The migration manager's registry paired with the database state. -/
structure MgrState where
  migs : List Migration
  db : DBState

/-- One manager call: addMigration changes the registry, migrate and
rollback change the database (keeping the rolled-back state on failure). -/
def stepOp (eng : Engine) (s : MgrState) (op : MigOp) : MgrState :=
  match op with
  | MigOp.add m => ⟨addMigration s.migs m, s.db⟩
  | MigOp.migrate => ⟨s.migs, resultState (migrate eng s.migs s.db)⟩
  | MigOp.rollback => ⟨s.migs, resultState (rollback eng s.migs s.db)⟩

/-- Run a sequence of manager calls from a starting state. -/
def runOps (eng : Engine) (s : MgrState) (ops : List MigOp) : MgrState :=
  ops.foldl (stepOp eng) s

/-- The versions of the migrations registered by a call sequence. -/
def addedVersions : List MigOp → List Nat
  | [] => []
  | (MigOp.add m) :: rest => m.version :: addedVersions rest
  | _ :: rest => addedVersions rest

/-- The version column of the bookkeeping table. -/
def recordVersions (db : DBState) : List Nat := db.records.map MigrationRow.version

instance : DecidableRel (fun a b : Migration => a.version ≤ b.version) :=
  fun a b => Nat.decLe a.version b.version

instance : IsTotal Migration (fun a b => a.version ≤ b.version) :=
  ⟨fun a b => Nat.le_total a.version b.version⟩

instance : IsTrans Migration (fun a b => a.version ≤ b.version) :=
  ⟨fun _ _ _ hab hbc => Nat.le_trans hab hbc⟩

theorem addMigration_sorted (migs : List Migration) (m : Migration) :
    (addMigration migs m).Pairwise (fun a b => a.version ≤ b.version) :=
  List.sorted_insertionSort _ _

theorem addMigration_perm (migs : List Migration) (m : Migration) :
    (addMigration migs m).Perm (migs ++ [m]) :=
  List.perm_insertionSort _ _

theorem pairwise_version_lt_of_sorted_nodup {migs : List Migration}
    (hs : migs.Pairwise fun a b => a.version ≤ b.version)
    (hn : (migs.map Migration.version).Nodup) :
    migs.Pairwise fun a b => a.version < b.version := by
  have hne : migs.Pairwise (fun a b => a.version ≠ b.version) := by
    rw [List.Nodup, List.pairwise_map] at hn
    exact hn
  exact (hs.and hne).imp fun h => Nat.lt_of_le_of_ne h.1 h.2

theorem applyAll_nodup (eng : Engine) :
    ∀ (pending : List Migration) (db : DBState),
      (recordVersions db).Nodup →
      (∀ p ∈ pending, maxVersion db.records < p.version) →
      pending.Pairwise (fun a b => a.version < b.version) →
      (recordVersions (resultState (applyAll eng pending db))).Nodup := by
  intro pending
  induction pending with
  | nil =>
    intro db hnd _ _
    simpa [applyAll, resultState] using hnd
  | cons m rest ih =>
    intro db hnd hgt hpw
    unfold applyAll
    cases hm : applyMigration eng m db with
    | error p =>
      rcases p with ⟨e, d⟩
      have hd : d = db := applyMigration_error_eq hm
      simpa [resultState, hd] using hnd
    | ok db2 =>
      have hrec2 : db2.records = db.records ++ [⟨m.version, m.name⟩] :=
        (applyMigration_ok_spec hm).2.2.2
      have hmax : maxVersion db.records < m.version := hgt m (List.mem_cons_self _ _)
      have hnotmem : m.version ∉ recordVersions db := by
        intro hmem
        rcases List.mem_map.mp hmem with ⟨r, hr, hv⟩
        have hle := mem_records_le_maxVersion hr
        omega
      have hnd2 : (recordVersions db2).Nodup := by
        rw [recordVersions, hrec2, List.map_append]
        simp only [List.map_cons, List.map_nil]
        rw [List.nodup_append]
        exact ⟨hnd, List.nodup_singleton _, by
          intro v hv hv2
          simp at hv2
          subst hv2
          exact hnotmem hv⟩
      have hmax2 : maxVersion db2.records = max (maxVersion db.records) m.version := by
        rw [hrec2]
        exact maxVersion_append_single _ _
      have hpc := List.pairwise_cons.mp hpw
      apply ih db2 hnd2
      · intro p hp
        rw [hmax2]
        exact Nat.max_lt.mpr ⟨Nat.lt_trans hmax (hpc.1 p hp), hpc.1 p hp⟩
      · exact hpc.2

theorem migrate_preserves_nodup (eng : Engine) (migs : List Migration) (db : DBState)
    (hs : migs.Pairwise fun a b => a.version ≤ b.version)
    (hn : (migs.map Migration.version).Nodup)
    (hnd : (recordVersions db).Nodup) :
    (recordVersions (resultState (migrate eng migs db))).Nodup := by
  by_cases htab : db.migTable
  · rw [migrate, getPending_ok_of_table htab]
    by_cases hemp : (migs.filter fun m => maxVersion db.records < m.version).isEmpty
    · simpa [hemp, resultState] using hnd
    · simp only [hemp, Bool.false_eq_true, if_false]
      apply applyAll_nodup eng _ db hnd
      · intro p hp
        exact of_decide_eq_true (List.mem_filter.mp hp).2
      · exact (pairwise_version_lt_of_sorted_nodup hs hn).sublist (List.filter_sublist _)
  · have : db.migTable = false := by simpa using htab
    simp [migrate, getPendingMigrations, getCurrentVersion, this, Except.map, resultState]
    exact hnd

theorem rollback_preserves_nodup (eng : Engine) (migs : List Migration) (db : DBState)
    (hnd : (recordVersions db).Nodup) :
    (recordVersions (resultState (rollback eng migs db))).Nodup := by
  unfold rollback
  split
  · simpa [resultState] using hnd
  · split
    · simpa [resultState] using hnd
    · split
      · simpa [resultState] using hnd
      · split
        · simpa [resultState] using hnd
        · split
          · simp only [resultState, recordVersions]
            exact ((List.filter_sublist _).map MigrationRow.version).nodup hnd
          · simpa [resultState] using hnd

/-- The invariant preserved by every manager call when registered versions
stay distinct: sorted registry, distinct registry versions, distinct
bookkeeping versions. -/
def GoodState (s : MgrState) : Prop :=
  s.migs.Pairwise (fun a b => a.version ≤ b.version)
  ∧ (s.migs.map Migration.version).Nodup
  ∧ (recordVersions s.db).Nodup

theorem runOps_good (eng : Engine) :
    ∀ (ops : List MigOp) (s : MgrState), GoodState s →
      (addedVersions ops).Nodup →
      (∀ v ∈ addedVersions ops, v ∉ s.migs.map Migration.version) →
      GoodState (runOps eng s ops) := by
  intro ops
  induction ops with
  | nil =>
    intro s hs _ _
    simpa [runOps] using hs
  | cons op rest ih =>
    intro s hs hnops hfresh
    rw [runOps, List.foldl_cons]
    cases op with
    | add m =>
      have hmem : m.version ∈ addedVersions (MigOp.add m :: rest) := by
        simp [addedVersions]
      have hmfresh : m.version ∉ s.migs.map Migration.version := hfresh _ hmem
      have hnops2 : m.version ∉ addedVersions rest ∧ (addedVersions rest).Nodup :=
        List.nodup_cons.mp hnops
      have hperm : ((addMigration s.migs m).map Migration.version).Perm
          (s.migs.map Migration.version ++ [m.version]) := by
        simpa using (addMigration_perm s.migs m).map Migration.version
      have hgood : GoodState ⟨addMigration s.migs m, s.db⟩ := by
        refine ⟨addMigration_sorted _ _, ?_, hs.2.2⟩
        show ((addMigration s.migs m).map Migration.version).Nodup
        rw [hperm.nodup_iff, List.nodup_append]
        exact ⟨hs.2.1, List.nodup_singleton _, by
          intro v hv hv2
          simp at hv2
          subst hv2
          exact hmfresh hv⟩
      have hfresh2 : ∀ v ∈ addedVersions rest,
          v ∉ (addMigration s.migs m).map Migration.version := by
        intro v hv
        rw [hperm.mem_iff, List.mem_append]
        rintro (hin | hin)
        · exact hfresh v (List.mem_cons_of_mem _ hv) hin
        · simp at hin
          subst hin
          exact hnops2.1 hv
      exact ih ⟨addMigration s.migs m, s.db⟩ hgood hnops2.2 hfresh2
    | migrate =>
      exact ih ⟨s.migs, resultState (migrate eng s.migs s.db)⟩
        ⟨hs.1, hs.2.1, migrate_preserves_nodup eng s.migs s.db hs.1 hs.2.1 hs.2.2⟩
        hnops (fun v hv => hfresh v hv)
    | rollback =>
      exact ih ⟨s.migs, resultState (rollback eng s.migs s.db)⟩
        ⟨hs.1, hs.2.1, rollback_preserves_nodup eng s.migs s.db hs.2.2⟩
        hnops (fun v hv => hfresh v hv)

/-- C3 amended: every migration is applied at most once provided the
registered versions are pairwise distinct — after any sequence of
addMigration, migrate and rollback calls starting from an empty registry
and a bookkeeping table with distinct versions, the versions recorded in
the bookkeeping table remain unique.  (With duplicate registered versions
the guarantee fails, as the counterexample shows.) -/
theorem unique_versions_when_registry_distinct (eng : Engine) (ops : List MigOp)
    (db : DBState) (hdb : (recordVersions db).Nodup)
    (hops : (addedVersions ops).Nodup) :
    (recordVersions (runOps eng ⟨[], db⟩ ops).db).Nodup :=
  (runOps_good eng ops ⟨[], db⟩ ⟨List.Pairwise.nil, List.nodup_nil, hdb⟩ hops
    (by intro v _ h; simp at h)).2.2

/-- Witness for C3 amended: a concrete sequence registering versions 1 and
2 and migrating twice keeps the bookkeeping versions unique. -/
theorem unique_versions_when_registry_distinct_witness :
    (recordVersions (runOps engNoop ⟨[], DBState.mk true [] []⟩
      [MigOp.add ⟨1, "a", "u-a", none⟩, MigOp.migrate,
       MigOp.add ⟨2, "b", "u-b", none⟩, MigOp.migrate]).db).Nodup :=
  unique_versions_when_registry_distinct engNoop
    [MigOp.add ⟨1, "a", "u-a", none⟩, MigOp.migrate,
     MigOp.add ⟨2, "b", "u-b", none⟩, MigOp.migrate]
    (DBState.mk true [] []) (by decide) (by decide)

/-- A freshly connected database: the migrations bookkeeping table does
not exist yet. -/
def freshDB : DBState := ⟨false, [], []⟩

/-- C4 counterexample: on a freshly connected database the very first
manager operation fails with the missing-table error instead of
succeeding — no operation creates the bookkeeping table before querying
it (only the never-invoked initializeMigrationsTable would). -/
theorem fresh_db_first_operation_fails :
    getCurrentVersion freshDB = Except.error "no such table: migrations"
    ∧ getPendingMigrations migsInit freshDB = Except.error "no such table: migrations"
    ∧ migrate engOk migsInit freshDB = Except.error ("no such table: migrations", freshDB)
    ∧ rollback engOk migsInit freshDB = Except.error ("no such table: migrations", freshDB)
    ∧ getStatus migsInit freshDB = Except.error "no such table: migrations" :=
  ⟨rfl, rfl, rfl, rfl, rfl⟩

/-- C4 amended: the bookkeeping table is created only by an explicit
initializeMigrationsTable call, idempotent through the initialized flag;
no runner operation creates it, so while it is absent every operation
fails with the missing-table error, and after the explicit call
currentVersion succeeds. -/
theorem table_created_only_by_explicit_init (eng : Engine) (migs : List Migration)
    (db : DBState) (st : ManagerInit) (huninit : db.migTable = false) :
    getCurrentVersion db = Except.error "no such table: migrations"
    ∧ migrate eng migs db = Except.error ("no such table: migrations", db)
    ∧ rollback eng migs db = Except.error ("no such table: migrations", db)
    ∧ getStatus migs db = Except.error "no such table: migrations"
    ∧ (st.initialized = false →
        (initializeMigrationsTable st db).2.migTable = true
        ∧ getCurrentVersion (initializeMigrationsTable st db).2
            = Except.ok (maxVersion db.records))
    ∧ (initializeMigrationsTable ⟨true⟩ db).2 = db := by
  refine ⟨?_, ?_, ?_, ?_, ?_, ?_⟩
  · simp [getCurrentVersion, huninit]
  · simp [migrate, getPendingMigrations, getCurrentVersion, huninit, Except.map]
  · simp [rollback, getCurrentVersion, huninit]
  · simp [getStatus, getCurrentVersion, huninit]
  · intro hflag
    simp [initializeMigrationsTable, hflag, getCurrentVersion]
  · simp [initializeMigrationsTable]

/-- Witness for C4 amended: after the explicit initialization call on a
fresh database, currentVersion succeeds and reports version 0. -/
theorem table_created_only_by_explicit_init_witness :
    getCurrentVersion (initializeMigrationsTable ⟨false⟩ freshDB).2 = Except.ok 0 :=
  ((table_created_only_by_explicit_init engOk migsInit freshDB ⟨false⟩ rfl).2.2.2.2.1 rfl).2

/-
  The self-validating model layer (BaseModel, User, RegistrationRequest).
  TypeScript enum-typed fields are erased to strings at runtime (rows cast
  from the database can carry any string), so the embedding keeps them as
  strings and validateEnum checks membership in the literal value lists.
  A JavaScript Date is either a definite instant or the Invalid Date value.
-/

/-- A JavaScript Date: some definite instant in epoch milliseconds, or the
Invalid Date value whose time is NaN. -/
structure JsDate where
  millis : Option Int
  deriving DecidableEq, Repr

/-- The whitespace class of the JavaScript regular-expression escape used
by the shared validators. -/
def isJsSpace (c : Char) : Bool :=
  c = ' ' || c = '\t' || c = '\n' || c = '\r' || c = '\x0b' || c = '\x0c'
  || c.val = 0xa0 || c.val = 0x1680 || (0x2000 ≤ c.val && c.val ≤ 0x200a)
  || c.val = 0x2028 || c.val = 0x2029 || c.val = 0x202f || c.val = 0x205f
  || c.val = 0x3000 || c.val = 0xfeff

/-- String.prototype.trim: strip leading and trailing whitespace. -/
def jsTrim (s : String) : String :=
  String.mk (((s.toList.dropWhile isJsSpace).reverse.dropWhile isJsSpace).reverse)

/-- String.prototype.split with a single-character separator, on the
character list of the string. -/
def splitOnChar (sep : Char) : List Char → List (List Char)
  | [] => [[]]
  | c :: rest =>
    match splitOnChar sep rest with
    | [] => [[]]
    | g :: gs => if c = sep then [] :: g :: gs else (c :: g) :: gs

/-- Array.prototype.join with a comma-space separator. -/
def joinComma : List String → String
  | [] => ""
  | [s] => s
  | s :: rest => s ++ ", " ++ joinComma rest

instance {ε α : Type} [DecidableEq ε] [DecidableEq α] : DecidableEq (Except ε α) :=
  fun a b =>
    match a, b with
    | Except.ok x, Except.ok y =>
      if h : x = y then isTrue (by rw [h])
      else isFalse (by intro hc; injection hc; contradiction)
    | Except.ok _, Except.error _ => isFalse (by intro hc; cases hc)
    | Except.error _, Except.ok _ => isFalse (by intro hc; cases hc)
    | Except.error x, Except.error y =>
      if h : x = y then isTrue (by rw [h])
      else isFalse (by intro hc; injection hc; contradiction)

/-- A character accepted by the bracket class of the email pattern: not
whitespace and not an at sign. -/
def emailAtomChar (c : Char) : Bool := !(isJsSpace c) && c ≠ '@'

/-- BaseModel.validateEmail: the anchored pattern of one run of
non-space-non-at characters, an at sign, a second run containing a dot
with at least one accepted character on each side. -/
def validateEmail (s : String) : Bool :=
  match splitOnChar '@' s.toList with
  | [a, t] =>
    decide (1 ≤ a.length) && decide (1 ≤ t.length)
    && a.all emailAtomChar && t.all emailAtomChar
    && (t.drop 1).dropLast.contains '.'
  | _ => false

/-- BaseModel.validateRequiredString: rejects the empty string and strings
that are blank after trimming. -/
def validateRequiredString (value fieldName : String) : Except String Unit :=
  if value = "" ∨ (jsTrim value).length = 0 then
    Except.error (fieldName ++ " is required and must be a non-empty string")
  else Except.ok ()

/-- BaseModel.validateStringLength: the length must lie within the given
inclusive bounds. -/
def validateStringLength (value fieldName : String) (minLength maxLength : Nat) :
    Except String Unit :=
  if value.length < minLength ∨ maxLength < value.length then
    Except.error (fieldName ++ " must be between " ++ toString minLength
      ++ " and " ++ toString maxLength ++ " characters")
  else Except.ok ()

/-- BaseModel.validateEnum: membership in the literal value list of the
enumeration. -/
def validateEnum (value : String) (validValues : List String) (fieldName : String) :
    Except String Unit :=
  if validValues.contains value then Except.ok ()
  else Except.error (fieldName ++ " must be one of: " ++ joinComma validValues)

/-- A hexadecimal digit of either case. -/
def isHexChar (c : Char) : Bool :=
  c.isDigit || ('a' ≤ c && c ≤ 'f') || ('A' ≤ c && c ≤ 'F')

/-- The shape checked by BaseModel.validateUUID: five hyphen-separated hex
groups of lengths 8-4-4-4-12, version digit 1 to 5, variant nibble 8, 9, a
or b, case-insensitive. -/
def validUUIDFormat (s : String) : Bool :=
  match splitOnChar '-' s.toList with
  | [a, b, c, d, e] =>
    decide (a.length = 8) && decide (b.length = 4) && decide (c.length = 4)
    && decide (d.length = 4) && decide (e.length = 12)
    && (a ++ b ++ c.drop 1 ++ d.drop 1 ++ e).all isHexChar
    && (match c with
        | x :: _ => "12345".toList.contains x
        | [] => false)
    && (match d with
        | x :: _ => "89abAB".toList.contains x
        | [] => false)
  | _ => false

/-- BaseModel.validateUUID as a check raising the descriptive error. -/
def validateUUID (value fieldName : String) : Except String Unit :=
  if validUUIDFormat value then Except.ok ()
  else Except.error (fieldName ++ " must be a valid UUID")

/-- BaseModel.validateDate: new Date(value) must not be NaN. -/
def validateDate (d : JsDate) (fieldName : String) : Except String Unit :=
  match d.millis with
  | some _ => Except.ok ()
  | none => Except.error (fieldName ++ " must be a valid date")

/-- BaseModel.validateOptional: run the validator only when the value is
present. -/
def validateOptional {α : Type} (value : Option α)
    (validator : α → Except String Unit) : Except String Unit :=
  match value with
  | some v => validator v
  | none => Except.ok ()

/-- Statement sequencing inside a validate() body: the first thrown error
aborts the rest. -/
def vseq (a b : Except String Unit) : Except String Unit :=
  match a with
  | Except.error e => Except.error e
  | Except.ok _ => b

theorem vseq_ok {a b : Except String Unit} :
    vseq a b = Except.ok () ↔ a = Except.ok () ∧ b = Except.ok () := by
  cases a with
  | ok u => cases u; simp [vseq]
  | error e => simp [vseq]

/-- A JavaScript falsiness test on an optional string: undefined and the
empty string are falsy. -/
def falsyStr : Option String → Bool
  | none => true
  | some s => s = ""

/-- Turn a validate() outcome into the optional exception the caller
observes. -/
def errOf : Except String Unit → Option String
  | Except.ok _ => none
  | Except.error e => some e

/-- The literal values of enum UserRole. -/
def UserRoleValues : List String := ["PRODUCT_PEOPLE", "CLIENT_MANAGER"]

/-- The literal values of enum UserStatus. -/
def UserStatusValues : List String := ["PENDING", "ACTIVE", "INACTIVE"]

/-- The literal values of enum RegistrationRequestStatus. -/
def RegistrationRequestStatusValues : List String := ["PENDING", "APPROVED", "REJECTED"]

/-- The User model: identity, email, names, role, status, timestamps. -/
structure User where
  id : String
  email : String
  firstName : String
  lastName : String
  role : String
  status : String
  createdAt : JsDate
  updatedAt : JsDate
  deriving DecidableEq, Repr

/-- User.validate, in the exact check order of the source. -/
def User.validate (u : User) : Except String Unit :=
  vseq (validateUUID u.id "id")
  (vseq (validateRequiredString u.email "email")
  (vseq (if validateEmail u.email then Except.ok ()
         else Except.error "email must be a valid email address")
  (vseq (validateStringLength u.email "email" 3 255)
  (vseq (validateRequiredString u.firstName "firstName")
  (vseq (validateStringLength u.firstName "firstName" 1 100)
  (vseq (validateRequiredString u.lastName "lastName")
  (vseq (validateStringLength u.lastName "lastName" 1 100)
  (vseq (validateEnum u.role UserRoleValues "role")
  (vseq (validateEnum u.status UserStatusValues "status")
  (vseq (validateDate u.createdAt "createdAt")
        (validateDate u.updatedAt "updatedAt")))))))))))

/-- CreateUserRequest: the factory input (no id, no timestamps). -/
structure CreateUserRequest where
  email : String
  firstName : String
  lastName : String
  role : String
  deriving DecidableEq, Repr

/-- UpdateUserRequest: every field optional. -/
structure UpdateUserRequest where
  email : Option String
  firstName : Option String
  lastName : Option String
  role : Option String
  status : Option String
  deriving DecidableEq, Repr

/-- User.create: builds the user with a generated id, status PENDING and
both timestamps at now, then validates; the pair carries the constructed
state and the optional raised validation error. -/
def User.create (d : CreateUserRequest) (uuid : String) (now : JsDate) :
    User × Option String :=
  let u : User := ⟨uuid, d.email, d.firstName, d.lastName, d.role, "PENDING", now, now⟩
  (u, errOf u.validate)

/-- The field assignments performed by User.update before it validates. -/
def applyUserUpdate (u : User) (d : UpdateUserRequest) (now : JsDate) : User :=
  let u1 := match d.email with | some v => { u with email := v } | none => u
  let u2 := match d.firstName with | some v => { u1 with firstName := v } | none => u1
  let u3 := match d.lastName with | some v => { u2 with lastName := v } | none => u2
  let u4 := match d.role with | some v => { u3 with role := v } | none => u3
  let u5 := match d.status with | some v => { u4 with status := v } | none => u4
  { u5 with updatedAt := now }

/-- User.update: assigns the provided fields and updatedAt in place, then
validates; a validation failure is raised after the assignments, so the
returned state is the mutated one in either case. -/
def User.update (u : User) (d : UpdateUserRequest) (now : JsDate) :
    User × Option String :=
  let u2 := applyUserUpdate u d now
  (u2, errOf u2.validate)

/-- User.activate: sets status ACTIVE and refreshes updatedAt; it does not
call validate, so it never raises. -/
def User.activate (u : User) (now : JsDate) : User × Option String :=
  ({ u with status := "ACTIVE", updatedAt := now }, none)

/-- User.deactivate: sets status INACTIVE and refreshes updatedAt; it does
not call validate, so it never raises. -/
def User.deactivate (u : User) (now : JsDate) : User × Option String :=
  ({ u with status := "INACTIVE", updatedAt := now }, none)

/-- The RegistrationRequest model. -/
structure RegistrationRequest where
  id : String
  email : String
  firstName : String
  lastName : String
  requestedRole : String
  status : String
  createdAt : JsDate
  updatedAt : JsDate
  approvedBy : Option String
  approvedAt : Option JsDate
  rejectionReason : Option String
  deriving DecidableEq, Repr

/-- RegistrationRequest.validate, in the exact check order of the source:
shape checks, optional-field checks, then the cross-field business rules. -/
def RegistrationRequest.validate (r : RegistrationRequest) : Except String Unit :=
  vseq (validateUUID r.id "id")
  (vseq (validateRequiredString r.email "email")
  (vseq (if validateEmail r.email then Except.ok ()
         else Except.error "email must be a valid email address")
  (vseq (validateStringLength r.email "email" 3 255)
  (vseq (validateRequiredString r.firstName "firstName")
  (vseq (validateStringLength r.firstName "firstName" 1 100)
  (vseq (validateRequiredString r.lastName "lastName")
  (vseq (validateStringLength r.lastName "lastName" 1 100)
  (vseq (validateEnum r.requestedRole UserRoleValues "requestedRole")
  (vseq (validateEnum r.status RegistrationRequestStatusValues "status")
  (vseq (validateDate r.createdAt "createdAt")
  (vseq (validateDate r.updatedAt "updatedAt")
  (vseq (validateOptional r.approvedBy (fun v => validateUUID v "approvedBy"))
  (vseq (validateOptional r.approvedAt (fun v => validateDate v "approvedAt"))
  (vseq (validateOptional r.rejectionReason (fun v =>
          vseq (validateRequiredString v "rejectionReason")
               (validateStringLength v "rejectionReason" 1 500)))
  (vseq (if r.status = "APPROVED" && falsyStr r.approvedBy then
           Except.error "approvedBy is required when status is APPROVED"
         else Except.ok ())
  (vseq (if r.status = "REJECTED" && falsyStr r.rejectionReason then
           Except.error "rejectionReason is required when status is REJECTED"
         else Except.ok ())
        (if r.status = "REJECTED" && falsyStr r.approvedBy then
           Except.error "approvedBy is required when status is REJECTED"
         else Except.ok ())))))))))))))))))

/-- CreateRegistrationRequestRequest: the factory input. -/
structure CreateRegistrationRequestRequest where
  email : String
  firstName : String
  lastName : String
  requestedRole : String
  deriving DecidableEq, Repr

/-- ApproveRegistrationRequestRequest: the approval or rejection payload. -/
structure ApproveRegistrationRequestRequest where
  approved : Bool
  assignedRole : Option String
  rejectionReason : Option String
  deriving DecidableEq, Repr

/-- RegistrationRequest.create: builds the request with a generated id,
status PENDING and both timestamps at now, then validates. -/
def RegistrationRequest.create (d : CreateRegistrationRequestRequest)
    (uuid : String) (now : JsDate) : RegistrationRequest × Option String :=
  let r : RegistrationRequest :=
    ⟨uuid, d.email, d.firstName, d.lastName, d.requestedRole, "PENDING",
     now, now, none, none, none⟩
  (r, errOf r.validate)

/-- RegistrationRequest.process: assigns approver, approval time and
updatedAt, sets the terminal status (copying the given rejection reason on
rejection), then validates; the assignments precede any raised error. -/
def RegistrationRequest.process (r : RegistrationRequest)
    (approvalData : ApproveRegistrationRequestRequest) (approvedBy : String)
    (now : JsDate) : RegistrationRequest × Option String :=
  let r1 := { r with
                approvedBy := some approvedBy,
                approvedAt := some now,
                updatedAt := now }
  let r2 := if approvalData.approved then { r1 with status := "APPROVED" }
            else { r1 with
                     status := "REJECTED",
                     rejectionReason := approvalData.rejectionReason }
  (r2, errOf r2.validate)

/-- RegistrationRequest.canBeProcessed: true only while status is PENDING;
process never consults it. -/
def RegistrationRequest.canBeProcessed (r : RegistrationRequest) : Bool :=
  r.status = "PENDING"

theorem vseq_ok_left {b : Except String Unit} : vseq (Except.ok ()) b = b := rfl

theorem vseq_error_left {e : String} {b : Except String Unit} :
    vseq (Except.error e) b = Except.error e := rfl

theorem errOf_eq_none {e : Except String Unit} :
    errOf e = none ↔ e = Except.ok () := by
  cases e with
  | ok u => cases u; simp [errOf]
  | error s => simp [errOf]

/-- A definite instant used by the concrete model states. -/
def tNow : JsDate := ⟨some 1700000000000⟩

/-- A well-formed user id. -/
def userId1 : String := "123e4567-e89b-12d3-a456-426614174000"

/-- A user state whose firstName violates the required-string rule (such a
state is reachable: the constructor and fromDatabase perform no
validation). -/
def invalidUser : User :=
  ⟨userId1, "test@example.com", "", "Doe", "PRODUCT_PEOPLE", "PENDING", tNow, tNow⟩

/-- C5 counterexample: activate mutates without running validation — on a
user whose state fails validate(), activate raises no error yet leaves a
state that still fails validate(), so validation does not run after every
mutating method and no descriptive error is raised. -/
theorem activate_skips_validation :
    (User.activate invalidUser tNow).2 = none
    ∧ User.validate (User.activate invalidUser tNow).1
        = Except.error "firstName is required and must be a non-empty string" :=
  ⟨rfl, by decide⟩

/-- C5 amended: the create factories, update and process validate the
freshly built or mutated state and raise exactly when it fails
validate(); activate and deactivate only assign status and updatedAt and
never run validation (they never raise, even on an invalid state). -/
theorem validation_on_create_update_process (u : User) (cd : CreateUserRequest)
    (rd : CreateRegistrationRequestRequest) (r : RegistrationRequest)
    (d : UpdateUserRequest) (a : ApproveRegistrationRequestRequest)
    (uuid approver : String) (now : JsDate) :
    ((User.create cd uuid now).2 = none ↔
        User.validate (User.create cd uuid now).1 = Except.ok ())
    ∧ ((RegistrationRequest.create rd uuid now).2 = none ↔
        RegistrationRequest.validate (RegistrationRequest.create rd uuid now).1
          = Except.ok ())
    ∧ ((User.update u d now).2 = none ↔
        User.validate (User.update u d now).1 = Except.ok ())
    ∧ ((RegistrationRequest.process r a approver now).2 = none ↔
        RegistrationRequest.validate (RegistrationRequest.process r a approver now).1
          = Except.ok ())
    ∧ (User.activate u now).2 = none
    ∧ (User.activate u now).1 = { u with status := "ACTIVE", updatedAt := now }
    ∧ (User.deactivate u now).2 = none
    ∧ (User.deactivate u now).1 = { u with status := "INACTIVE", updatedAt := now } :=
  ⟨errOf_eq_none, errOf_eq_none, errOf_eq_none, errOf_eq_none, rfl, rfl, rfl, rfl⟩

/-- C8: process performs no guard on the current status — on any
well-formed request already REJECTED with a rejection reason recorded,
process with an approval still succeeds (no error raised), sets status
APPROVED, overwrites approvedBy, approvedAt and updatedAt, and leaves the
stale rejectionReason in place, even though canBeProcessed is false. -/
theorem process_ignores_terminal_state (r : RegistrationRequest)
    (a : ApproveRegistrationRequestRequest) (approver reason : String)
    (now : JsDate) (t : Int)
    (hrval : RegistrationRequest.validate r = Except.ok ())
    (hst : r.status = "REJECTED")
    (hrr : r.rejectionReason = some reason)
    (happ : validUUIDFormat approver = true)
    (hnow : now.millis = some t)
    (ha : a.approved = true) :
    RegistrationRequest.canBeProcessed r = false
    ∧ (RegistrationRequest.process r a approver now).2 = none
    ∧ (RegistrationRequest.process r a approver now).1.status = "APPROVED"
    ∧ (RegistrationRequest.process r a approver now).1.approvedBy = some approver
    ∧ (RegistrationRequest.process r a approver now).1.approvedAt = some now
    ∧ (RegistrationRequest.process r a approver now).1.updatedAt = now
    ∧ (RegistrationRequest.process r a approver now).1.rejectionReason = some reason := by
  have hne : approver ≠ "" := by
    intro h
    rw [h] at happ
    exact absurd happ (by decide)
  have hval2 : RegistrationRequest.validate
      (RegistrationRequest.process r a approver now).1 = Except.ok () := by
    simp only [RegistrationRequest.process, ha, if_true]
    simp only [RegistrationRequest.validate, vseq_ok] at hrval ⊢
    obtain ⟨h1, h2, h3, h4, h5, h6, h7, h8, h9, h10, h11, h12, h13, h14, h15,
      h16, h17, h18⟩ := hrval
    refine ⟨h1, h2, h3, h4, h5, h6, h7, h8, h9, by decide, h11, ?_, ?_, ?_, h15,
      ?_, by simp, by simp⟩
    · simp [validateDate, hnow]
    · simp [validateOptional, validateUUID, happ]
    · simp [validateOptional, validateDate, hnow]
    · simp [falsyStr, hne]
  have hsnd : (RegistrationRequest.process r a approver now).2
      = errOf (RegistrationRequest.validate
          (RegistrationRequest.process r a approver now).1) := rfl
  refine ⟨?_, ?_, ?_, ?_, ?_, ?_, ?_⟩
  · simp [RegistrationRequest.canBeProcessed, hst]
  · rw [hsnd, hval2]; rfl
  · simp [RegistrationRequest.process, ha]
  · simp [RegistrationRequest.process, ha]
  · simp [RegistrationRequest.process, ha]
  · simp [RegistrationRequest.process, ha]
  · simp [RegistrationRequest.process, ha, hrr]

/-- A request already rejected, with approver and reason recorded. -/
def rejectedRequest : RegistrationRequest :=
  ⟨"223e4567-e89b-12d3-a456-426614174000", "reg@example.com", "Jane", "Roe",
   "CLIENT_MANAGER", "REJECTED", tNow, tNow, some userId1, some tNow,
   some "not eligible"⟩

/-- Witness for C8: re-processing a concrete rejected request with an
approval succeeds, turns it APPROVED and keeps the stale reason. -/
theorem process_ignores_terminal_state_witness :
    RegistrationRequest.canBeProcessed rejectedRequest = false
    ∧ (RegistrationRequest.process rejectedRequest ⟨true, none, none⟩ userId1 tNow).2 = none
    ∧ (RegistrationRequest.process rejectedRequest ⟨true, none, none⟩ userId1 tNow).1.status
        = "APPROVED"
    ∧ (RegistrationRequest.process rejectedRequest ⟨true, none, none⟩ userId1 tNow).1.approvedBy
        = some userId1
    ∧ (RegistrationRequest.process rejectedRequest ⟨true, none, none⟩ userId1 tNow).1.approvedAt
        = some tNow
    ∧ (RegistrationRequest.process rejectedRequest ⟨true, none, none⟩ userId1 tNow).1.updatedAt
        = tNow
    ∧ (RegistrationRequest.process rejectedRequest ⟨true, none, none⟩ userId1 tNow).1.rejectionReason
        = some "not eligible" :=
  process_ignores_terminal_state rejectedRequest ⟨true, none, none⟩ userId1
    "not eligible" tNow 1700000000000 (by decide) rfl rfl (by decide) rfl rfl

/-- C9: mutation is not rolled back on validation failure — update and
process assign the new field values first and validate afterwards, so when
the applied values fail validate() the error is raised while the in-memory
object keeps the new, invalid values: an update to a malformed email
leaves the malformed email in place, and a rejection without a reason
leaves status REJECTED with no reason recorded. -/
theorem mutation_survives_validation_failure (u : User) (r : RegistrationRequest)
    (approver : String) (now : JsDate) (t : Int)
    (huval : User.validate u = Except.ok ())
    (hrval : RegistrationRequest.validate r = Except.ok ())
    (happ : validUUIDFormat approver = true)
    (hnow : now.millis = some t) :
    ((User.update u ⟨some "not-an-email", none, none, none, none⟩ now).2
        = some "email must be a valid email address"
      ∧ (User.update u ⟨some "not-an-email", none, none, none, none⟩ now).1.email
        = "not-an-email")
    ∧ ((RegistrationRequest.process r ⟨false, none, none⟩ approver now).2
        = some "rejectionReason is required when status is REJECTED"
      ∧ (RegistrationRequest.process r ⟨false, none, none⟩ approver now).1.status
        = "REJECTED"
      ∧ (RegistrationRequest.process r ⟨false, none, none⟩ approver now).1.rejectionReason
        = none) := by
  simp only [User.validate, vseq_ok] at huval
  obtain ⟨hu1, hu2, hu3, hu4, hu5, hu6, hu7, hu8, hu9, hu10, hu11, hu12⟩ := huval
  simp only [RegistrationRequest.validate, vseq_ok] at hrval
  obtain ⟨hr1, hr2, hr3, hr4, hr5, hr6, hr7, hr8, hr9, hr10, hr11, hr12, hr13,
    hr14, hr15, hr16, hr17, hr18⟩ := hrval
  have hval2u : User.validate
      (User.update u ⟨some "not-an-email", none, none, none, none⟩ now).1
      = Except.error "email must be a valid email address" := by
    show User.validate (applyUserUpdate u ⟨some "not-an-email", none, none, none, none⟩ now)
      = Except.error "email must be a valid email address"
    simp only [applyUserUpdate]
    simp only [User.validate]
    rw [hu1, vseq_ok_left,
      show validateRequiredString "not-an-email" "email" = Except.ok () from by decide,
      vseq_ok_left]
    simp [vseq, show validateEmail "not-an-email" = false from by decide]
  have hval2r : RegistrationRequest.validate
      (RegistrationRequest.process r ⟨false, none, none⟩ approver now).1
      = Except.error "rejectionReason is required when status is REJECTED" := by
    simp only [RegistrationRequest.process, Bool.false_eq_true, if_false]
    simp only [RegistrationRequest.validate]
    rw [hr1, vseq_ok_left, hr2, vseq_ok_left, hr3, vseq_ok_left, hr4, vseq_ok_left,
      hr5, vseq_ok_left, hr6, vseq_ok_left, hr7, vseq_ok_left, hr8, vseq_ok_left,
      hr9, vseq_ok_left,
      show validateEnum "REJECTED" RegistrationRequestStatusValues "status"
        = Except.ok () from by decide, vseq_ok_left,
      hr11, vseq_ok_left,
      show validateDate now "updatedAt" = Except.ok () from by simp [validateDate, hnow],
      vseq_ok_left,
      show validateOptional (some approver) (fun v => validateUUID v "approvedBy")
        = Except.ok () from by simp [validateOptional, validateUUID, happ],
      vseq_ok_left,
      show validateOptional (some now) (fun v => validateDate v "approvedAt")
        = Except.ok () from by simp [validateOptional, validateDate, hnow],
      vseq_ok_left]
    simp [vseq, validateOptional, falsyStr]
  refine ⟨⟨?_, rfl⟩, ?_, ?_, ?_⟩
  · have hsnd : (User.update u ⟨some "not-an-email", none, none, none, none⟩ now).2
        = errOf (User.validate
            (User.update u ⟨some "not-an-email", none, none, none, none⟩ now).1) := rfl
    rw [hsnd, hval2u]; rfl
  · have hsnd : (RegistrationRequest.process r ⟨false, none, none⟩ approver now).2
        = errOf (RegistrationRequest.validate
            (RegistrationRequest.process r ⟨false, none, none⟩ approver now).1) := rfl
    rw [hsnd, hval2r]; rfl
  · rfl
  · rfl

/-- A well-formed active user. -/
def validUser : User :=
  ⟨userId1, "test@example.com", "John", "Doe", "PRODUCT_PEOPLE", "ACTIVE", tNow, tNow⟩

/-- A well-formed pending registration request. -/
def pendingRequest : RegistrationRequest :=
  ⟨"223e4567-e89b-12d3-a456-426614174000", "reg@example.com", "Jane", "Roe",
   "CLIENT_MANAGER", "PENDING", tNow, tNow, none, none, none⟩

/-- Witness for C9: applied to a concrete valid user and a concrete valid
(pending) request, both hypotheses discharge and the mutated states keep
the invalid values alongside the raised errors. -/
theorem mutation_survives_validation_failure_witness :
    ((User.update validUser ⟨some "not-an-email", none, none, none, none⟩ tNow).2
        = some "email must be a valid email address"
      ∧ (User.update validUser ⟨some "not-an-email", none, none, none, none⟩ tNow).1.email
        = "not-an-email")
    ∧ ((RegistrationRequest.process pendingRequest ⟨false, none, none⟩ userId1 tNow).2
        = some "rejectionReason is required when status is REJECTED"
      ∧ (RegistrationRequest.process pendingRequest ⟨false, none, none⟩ userId1 tNow).1.status
        = "REJECTED"
      ∧ (RegistrationRequest.process pendingRequest ⟨false, none, none⟩ userId1 tNow).1.rejectionReason
        = none) :=
  mutation_survives_validation_failure validUser pendingRequest userId1 tNow
    1700000000000 (by decide) (by decide) (by decide) rfl

/-
  The repository layer (BaseRepository, UserRepository).  A table is a list
  of rows; SELECT ... ORDER BY created_at DESC is the stable sort on the
  creation key; LIMIT and OFFSET are take and drop; COUNT is the length.
-/

/-- A stored row as findAll sees it: primary key, creation-order key, and
the remaining columns abstracted into a payload. -/
structure DbRow where
  id : String
  created_at : Int
  payload : String
  deriving DecidableEq, Repr

/-- PaginationOptions: requested page (1-based) and page size. -/
structure PaginationOptions where
  page : Nat
  limit : Nat
  deriving DecidableEq, Repr

/-- The pagination block of a PaginatedResponse. -/
structure PageInfo where
  page : Nat
  limit : Nat
  total : Nat
  pages : Nat
  deriving DecidableEq, Repr

instance : DecidableRel (fun a b : DbRow => b.created_at ≤ a.created_at) :=
  fun a b => inferInstanceAs (Decidable (b.created_at ≤ a.created_at))

instance : IsTotal DbRow (fun a b => b.created_at ≤ a.created_at) :=
  ⟨fun a b => Int.le_total b.created_at a.created_at⟩

instance : IsTrans DbRow (fun a b => b.created_at ≤ a.created_at) :=
  ⟨fun _ _ _ hab hbc => Int.le_trans hbc hab⟩

/-- ORDER BY created_at DESC over the stored rows. -/
def orderByCreatedDesc (rows : List DbRow) : List DbRow :=
  List.insertionSort (fun a b => b.created_at ≤ a.created_at) rows

/-- BaseRepository.findAll: count and ordered page fetch; page defaults to
1 and limit to 10 when no options are given, the offset is
(page - 1) * limit, and pages is Math.ceil(total / limit), which on
positive integers equals (total + limit - 1) / limit. -/
def findAll {α : Type} (mapToEntity : DbRow → α) (rows : List DbRow)
    (options : Option PaginationOptions) : List α × PageInfo :=
  let page := match options with | some o => o.page | none => 1
  let limit := match options with | some o => o.limit | none => 10
  let offset := (page - 1) * limit
  let total := rows.length
  let pages := (total + limit - 1) / limit
  ((((orderByCreatedDesc rows).drop offset).take limit).map mapToEntity,
   ⟨page, limit, total, pages⟩)

theorem ceilDiv_le_iff (t l n : Nat) (hl : 0 < l) :
    (t + l - 1) / l ≤ n ↔ t ≤ n * l := by
  rw [Nat.div_le_iff_le_mul_add_pred hl]
  have h1 : t + l - 1 = t + (l - 1) := by omega
  rw [h1, Nat.mul_comm l n]
  constructor
  · intro h
    exact Nat.le_of_add_le_add_right h
  · intro h
    exact Nat.add_le_add_right h _

/-- C6: findAll returns the requested page of entities, the rows ordered
by creation time descending (a permutation of the stored rows), the total
equal to the row count, and pages the least number of limit-sized pages
covering the total (the ceiling of total over limit); without options the
page defaults to 1 and the limit to 10. -/
theorem findAll_pagination {α : Type} (mapToEntity : DbRow → α) (rows : List DbRow)
    (p l : Nat) (hl : 0 < l) :
    (findAll mapToEntity rows (some ⟨p, l⟩)).2
      = ⟨p, l, rows.length, (rows.length + l - 1) / l⟩
    ∧ (findAll mapToEntity rows (some ⟨p, l⟩)).1
      = (((orderByCreatedDesc rows).drop ((p - 1) * l)).take l).map mapToEntity
    ∧ rows.length ≤ ((rows.length + l - 1) / l) * l
    ∧ (∀ n, rows.length ≤ n * l → (rows.length + l - 1) / l ≤ n)
    ∧ (orderByCreatedDesc rows).Pairwise (fun a b => b.created_at ≤ a.created_at)
    ∧ (orderByCreatedDesc rows).Perm rows
    ∧ (findAll mapToEntity rows none).2.page = 1
    ∧ (findAll mapToEntity rows none).2.limit = 10 := by
  refine ⟨rfl, rfl, ?_, ?_, ?_, ?_, rfl, rfl⟩
  · exact (ceilDiv_le_iff rows.length l _ hl).mp (Nat.le_refl _)
  · intro n hn
    exact (ceilDiv_le_iff rows.length l n hl).mpr hn
  · exact List.sorted_insertionSort _ _
  · exact List.perm_insertionSort _ _

/-- Three stored rows with ascending creation keys. -/
def rows3 : List DbRow := [⟨"a", 1, "pa"⟩, ⟨"b", 2, "pb"⟩, ⟨"c", 3, "pc"⟩]

/-- Witness for C6: page 1 with limit 2 over 3 stored rows returns exactly
the 2 newest rows and the pagination block page 1, limit 2, total 3,
pages 2. -/
theorem findAll_pagination_witness :
    (findAll (fun row => row) rows3 (some ⟨1, 2⟩)).2 = ⟨1, 2, 3, 2⟩
    ∧ (findAll (fun row => row) rows3 (some ⟨1, 2⟩)).1
        = [⟨"c", 3, "pc"⟩, ⟨"b", 2, "pb"⟩] := by
  have h := findAll_pagination (fun row => row) rows3 1 2 (by decide)
  refine ⟨h.1, ?_⟩
  rw [h.2.1]
  decide

/-- A row of the users table. -/
structure UserRow where
  id : String
  email : String
  first_name : String
  last_name : String
  role : String
  status : String
  created_at : String
  updated_at : String
  deriving DecidableEq, Repr

/-- Partial<User> as update receives it: each updatable field possibly
present. -/
structure PartialUser where
  email : Option String
  firstName : Option String
  lastName : Option String
  role : Option String
  status : Option String
  updatedAt : Option JsDate
  deriving DecidableEq, Repr

/-- Date.prototype.toISOString, kept abstract as an injective rendering of
the instant. -/
def JsDate.toISOString (d : JsDate) : String :=
  match d.millis with
  | some n => "iso:" ++ toString n
  | none => "Invalid Date"

/-- UserRepository.mapToDatabase on a partial entity: one column per
provided field, in source order; the id and created_at columns are never
produced. -/
def mapToDatabase (p : PartialUser) : List (String × String) :=
  (match p.email with | some v => [("email", v)] | none => [])
  ++ (match p.firstName with | some v => [("first_name", v)] | none => [])
  ++ (match p.lastName with | some v => [("last_name", v)] | none => [])
  ++ (match p.role with | some v => [("role", v)] | none => [])
  ++ (match p.status with | some v => [("status", v)] | none => [])
  ++ (match p.updatedAt with | some v => [("updated_at", v.toISOString)] | none => [])

/-- The SQL text BaseRepository.update builds from the SET columns. -/
def updateQuery (tableName : String) (cols : List String) : String :=
  "UPDATE " ++ tableName ++ " SET "
    ++ joinComma (cols.map (fun k => k ++ " = ?")) ++ " WHERE id = ?"

/-- Applying one SET assignment to a row; no produced column ever targets
the id. -/
def setCol (row : UserRow) (kv : String × String) : UserRow :=
  if kv.1 = "email" then { row with email := kv.2 }
  else if kv.1 = "first_name" then { row with first_name := kv.2 }
  else if kv.1 = "last_name" then { row with last_name := kv.2 }
  else if kv.1 = "role" then { row with role := kv.2 }
  else if kv.1 = "status" then { row with status := kv.2 }
  else if kv.1 = "updated_at" then { row with updated_at := kv.2 }
  else row

/-- Applying the whole SET list to a row. -/
def applyCols (cols : List (String × String)) (row : UserRow) : UserRow :=
  cols.foldl setCol row

/-- SQLite running the built UPDATE statement: an empty SET list is the
malformed text that fails to parse; otherwise every row matching the id is
updated and the affected count returned. -/
def runUpdate (table : List UserRow) (cols : List (String × String)) (id : String) :
    Except String (Nat × List UserRow) :=
  if cols.isEmpty then
    Except.error "SQLITE_ERROR: near WHERE: syntax error"
  else
    Except.ok ((table.filter fun row => row.id = id).length,
      table.map fun row => if row.id = id then applyCols cols row else row)

/-- db.get for SELECT * WHERE id = ?: the first matching row, if any. -/
def findByIdRow (table : List UserRow) (id : String) : Option UserRow :=
  (table.filter fun row => row.id = id).head?

/-- BaseRepository.update: build the partial row fragment, run the UPDATE,
return nothing when zero rows changed, otherwise re-read the refreshed
row; the table after the call is paired with the outcome. -/
def repoUpdate (table : List UserRow) (id : String) (p : PartialUser) :
    Except String (List UserRow × Option UserRow) :=
  match runUpdate table (mapToDatabase p) id with
  | Except.error e => Except.error e
  | Except.ok (changes, table2) =>
    if changes = 0 then Except.ok (table2, none)
    else Except.ok (table2, findByIdRow table2 id)

theorem setCol_id (row : UserRow) (kv : String × String) :
    (setCol row kv).id = row.id := by
  unfold setCol
  split_ifs <;> rfl

theorem applyCols_id (cols : List (String × String)) :
    ∀ row : UserRow, (applyCols cols row).id = row.id := by
  induction cols with
  | nil => intro row; rfl
  | cons kv rest ih =>
    intro row
    show (applyCols rest (setCol row kv)).id = row.id
    rw [ih (setCol row kv), setCol_id]

/-- The partial with no field provided. -/
def emptyUpdate : PartialUser := ⟨none, none, none, none, none, none⟩

/-- A one-row users table. -/
def tableOne : List UserRow :=
  [⟨"u1", "a@b.co", "J", "D", "PRODUCT_PEOPLE", "ACTIVE", "t0", "t0"⟩]

/-- C7 counterexample: for the empty partial and an id matching no row — a
case in which zero rows change — update does not return the absence value:
the statement built from zero columns is malformed and the call fails with
an SQL error. -/
theorem update_empty_partial_not_absence :
    (tableOne.filter fun row => row.id = "missing") = []
    ∧ repoUpdate tableOne "missing" emptyUpdate
        = Except.error "SQLITE_ERROR: near WHERE: syntax error" :=
  ⟨rfl, rfl⟩

theorem filter_map_id_preserved (table : List UserRow) (id : String)
    (cols : List (String × String)) :
    ((table.map fun row => if row.id = id then applyCols cols row else row).filter
        fun row => row.id = id)
      = (table.filter fun row => row.id = id).map (fun row => applyCols cols row) := by
  induction table with
  | nil => rfl
  | cons row rest ih =>
    by_cases hid : row.id = id
    · simp only [List.map_cons, List.filter_cons, hid, if_true, applyCols_id, ih]
      simp
    · simp only [List.map_cons, List.filter_cons, hid, if_false, ih]
      simp [hid]

/-- C7 amended: provided the partial maps to at least one column, update
builds the row fragment from only the provided fields and updates by id;
zero changed rows (in particular an absent id) yield the absence value
with the table unchanged, and otherwise the refreshed row re-read from the
updated table is returned. -/
theorem repoUpdate_spec (table : List UserRow) (id : String) (p : PartialUser)
    (hne : mapToDatabase p ≠ []) :
    ((∀ row ∈ table, row.id ≠ id) →
      repoUpdate table id p = Except.ok (table, none))
    ∧ (∀ table2 res, repoUpdate table id p = Except.ok (table2, res) →
        table2 = table.map (fun row =>
          if row.id = id then applyCols (mapToDatabase p) row else row)
        ∧ (res = none ↔ (table.filter fun row => row.id = id) = [])
        ∧ (res ≠ none → res = findByIdRow table2 id)) := by
  have hne2 : (mapToDatabase p).isEmpty = false := by
    cases h : mapToDatabase p with
    | nil => exact absurd h hne
    | cons a as => rfl
  constructor
  · intro hnone
    have hf : (table.filter fun row => row.id = id) = [] := by
      rw [List.filter_eq_nil_iff]
      intro row hrow
      simpa using hnone row hrow
    have hmap : (table.map fun row =>
        if row.id = id then applyCols (mapToDatabase p) row else row) = table := by
      have : ∀ row ∈ table, (if row.id = id then
          applyCols (mapToDatabase p) row else row) = row := by
        intro row hrow
        simp [hnone row hrow]
      calc (table.map fun row =>
            if row.id = id then applyCols (mapToDatabase p) row else row)
          = table.map (fun row => row) := List.map_congr_left this
        _ = table := by simp
    simp only [repoUpdate, runUpdate, hne2, Bool.false_eq_true, if_false, hf,
      List.length_nil, if_true, hmap]
  · intro table2 res h
    simp only [repoUpdate, runUpdate, hne2, Bool.false_eq_true, if_false] at h
    by_cases hc : (table.filter fun row => row.id = id).length = 0
    · rw [if_pos hc] at h
      injection h with h
      injection h with h1 h2
      subst h1
      subst h2
      refine ⟨rfl, ?_, ?_⟩
      · rw [List.length_eq_zero] at hc
        simp [hc]
      · intro hcon
        exact absurd rfl hcon
    · rw [if_neg hc] at h
      injection h with h
      injection h with h1 h2
      subst h1
      subst h2
      have hfne : (table.filter fun row => row.id = id) ≠ [] := by
        intro hnil
        exact hc (by rw [hnil]; rfl)
      refine ⟨rfl, ?_, fun _ => rfl⟩
      constructor
      · intro hres
        exfalso
        rw [findByIdRow, filter_map_id_preserved] at hres
        rw [List.head?_eq_none_iff, List.map_eq_nil_iff] at hres
        exact hfne hres
      · intro hnil
        exact absurd hnil hfne

/-- A partial providing only a new email. -/
def partialEmail : PartialUser := ⟨some "new@b.co", none, none, none, none, none⟩

/-- Witness for C7 amended: updating an absent id with a one-column
partial returns the absence value and leaves the table unchanged. -/
theorem repoUpdate_spec_witness :
    repoUpdate tableOne "missing" partialEmail = Except.ok (tableOne, none) := by
  have h := repoUpdate_spec tableOne "missing" partialEmail (by decide)
  exact h.1 (by decide)

/-- C10: a partial entity mapping to zero database columns makes update
build the malformed statement with the empty SET clause, and the call
fails with an SQL error rather than returning the unchanged entity or the
absence value. -/
theorem update_empty_fragment_malformed (table : List UserRow) (id : String)
    (p : PartialUser) (hempty : mapToDatabase p = []) :
    updateQuery "users" ((mapToDatabase p).map Prod.fst)
      = "UPDATE users SET  WHERE id = ?"
    ∧ repoUpdate table id p = Except.error "SQLITE_ERROR: near WHERE: syntax error" := by
  constructor
  · rw [hempty]
    rfl
  · simp [repoUpdate, runUpdate, hempty]

/-- Witness for C10: the empty partial on an empty table produces the
malformed statement and the SQL error. -/
theorem update_empty_fragment_malformed_witness :
    updateQuery "users" ((mapToDatabase emptyUpdate).map Prod.fst)
      = "UPDATE users SET  WHERE id = ?"
    ∧ repoUpdate [] "u1" emptyUpdate
      = Except.error "SQLITE_ERROR: near WHERE: syntax error" :=
  update_empty_fragment_malformed [] "u1" emptyUpdate rfl

end ABEAM
